import Mathlib

/-!
# lambda-otel-exporter: span queue, ingestion handler, flush and poll loop

A shallow embedding of `internal/batchforwarder/batchforwarder.go` and of the
poll loop of `main.go`, followed by the properties proved about them.

Conventions of the embedding.

* A Go slice of `*v1.ResourceSpans` is a `List α`; the elements are never
  inspected, so the element type is a parameter.
* Go `int` / `int64` values are `Int`.  `len` of a slice is a natural number
  cast to `Int` where it is compared against `capacity`.
* The mutex of `spanQueue` serialises `Enqueue` and `DequeueAll`; each method is
  therefore one atomic transition of the queue state, and a concurrent history
  is the list of transitions in the order the lock was taken.
* A Go `error` result is an `Option` of an error value (`none` is `nil`).
* Calls into libraries (`proto.Unmarshal`, `json.Unmarshal`, `proto.Marshal`,
  `http.Client.Do`) are function parameters.
-/

namespace batchforwarder

/-! ## Constants and data (batchforwarder.go, lines 20-42, 128-132) -/

/-- Port of the ingestion listener. -/
def DefaultListenPort : Int := 4318

/-- Capacity given to the queue built by `New`. -/
def DefaultQueueCapacity : Int := 1000

/-- Errors built with `fmt.Errorf` in the package, one constructor per call site. -/
inductive Error where
  | atCapacity (capacity : Int)
  | marshalFailed
  | createRequestFailed
  | executeRequestFailed
  deriving DecidableEq, Repr

/-- The struct `spanQueue`; the mutex carries no data. -/
structure spanQueue (α : Type) where
  queue : List α
  capacity : Int
  deriving DecidableEq, Repr

/-- The struct `Config`. -/
structure Config where
  DestinationEndpoint : String
  Headers : List (String × String)
  deriving DecidableEq, Repr

/-- The struct `BatchForwarder`; the HTTP client is a parameter of `Flush`. -/
structure BatchForwarder (α : Type) where
  config : Config
  spanQueue : spanQueue α
  deriving DecidableEq, Repr

/-- The constructor `New`: an empty queue of capacity `DefaultQueueCapacity`. -/
def New {α : Type} (config : Config) : BatchForwarder α :=
  { config := config
    spanQueue := { queue := [], capacity := DefaultQueueCapacity } }

/-! ## Queue operations (batchforwarder.go, lines 134-154) -/

/-- The method `spanQueue.Enqueue`: rejected when `len(s.queue) >= s.capacity`,
otherwise all of `spans` is appended. Returns the new state and the error. -/
def spanQueue.Enqueue {α : Type} (s : spanQueue α) (spans : List α) :
    spanQueue α × Option Error :=
  if (s.queue.length : Int) ≥ s.capacity then
    (s, some (Error.atCapacity s.capacity))
  else
    ({ s with queue := s.queue ++ spans }, none)

/-- The method `spanQueue.DequeueAll`: returns the contents and leaves a fresh
empty slice. Returns the new state and the drained items. -/
def spanQueue.DequeueAll {α : Type} (s : spanQueue α) : spanQueue α × List α :=
  ({ s with queue := [] }, s.queue)

/-! ## Histories of queue operations -/

/-- One call on the queue, in the order in which the lock was taken. -/
inductive QueueOp (α : Type) where
  | enqueue (spans : List α)
  | dequeueAll
  deriving DecidableEq, Repr

/-- What a history of calls produced: the results of the `DequeueAll` calls and
the arguments of the `Enqueue` calls that returned `nil`, both in call order. -/
structure History (α : Type) where
  drains : List (List α)
  accepted : List (List α)
  deriving DecidableEq, Repr

/-- Runs a list of calls from state `s`; returns the final state and the history. -/
def runOps {α : Type} : spanQueue α → List (QueueOp α) → spanQueue α × History α
  | s, [] => (s, { drains := [], accepted := [] })
  | s, QueueOp.enqueue spans :: ops =>
      let r := s.Enqueue spans
      let rest := runOps r.1 ops
      match r.2 with
      | none => (rest.1, { rest.2 with accepted := spans :: rest.2.accepted })
      | some _ => rest
  | s, QueueOp.dequeueAll :: ops =>
      let r := s.DequeueAll
      let rest := runOps r.1 ops
      (rest.1, { rest.2 with drains := r.2 :: rest.2.drains })

/-- Calls `Enqueue` once per element of `batches`, in order, ignoring the results. -/
def enqueueAll {α : Type} (s : spanQueue α) (batches : List (List α)) : spanQueue α :=
  batches.foldl (fun q u => (q.Enqueue u).1) s

/-- Sum of the lengths of the batches, as a Go `int`. -/
def totalLen {α : Type} (batches : List (List α)) : Int :=
  (batches.map (fun u => (u.length : Int))).sum

/-- Largest batch passed to `Enqueue` in a list of calls is at most `m`. -/
def batchesAtMost {α : Type} (m : Nat) (ops : List (QueueOp α)) : Prop :=
  ∀ u, QueueOp.enqueue u ∈ ops → u.length ≤ m

/-! ## The ingestion handler (batchforwarder.go, lines 52-94) -/

/-- A Go byte slice. -/
abbrev Bytes := List (Fin 256)

/-- The message `coltracepb.ExportTraceServiceRequest`, of which only the
repeated field `ResourceSpans` is used. -/
structure ExportTraceServiceRequest (α : Type) where
  ResourceSpans : List α
  deriving DecidableEq, Repr

/-- The getter `GetResourceSpans`. -/
def ExportTraceServiceRequest.GetResourceSpans {α : Type}
    (msg : ExportTraceServiceRequest α) : List α :=
  msg.ResourceSpans

/-- The library codecs used by the package: `proto.Unmarshal` and
`json.Unmarshal` into an `ExportTraceServiceRequest` (`none` is a decode error)
and `proto.Marshal` (`none` is an encode error). -/
structure Codec (α : Type) where
  protoUnmarshal : Bytes → Option (ExportTraceServiceRequest α)
  jsonUnmarshal : Bytes → Option (ExportTraceServiceRequest α)
  protoMarshal : ExportTraceServiceRequest α → Option Bytes

/-- The constant `http.StatusBadRequest`. -/
def StatusBadRequest : Nat := 400

/-- The constant `http.StatusOK`. -/
def StatusOK : Nat := 200

/-- Lines 83-93 of `addToQueue`: enqueue the decoded groups and answer. -/
def BatchForwarder.enqueueDecoded {α : Type} (f : BatchForwarder α)
    (msg : ExportTraceServiceRequest α) : BatchForwarder α × Nat :=
  let resourceSpans := msg.GetResourceSpans
  let r := f.spanQueue.Enqueue resourceSpans
  match r.2 with
  | some _ => ({ f with spanQueue := r.1 }, StatusBadRequest)
  | none => ({ f with spanQueue := r.1 }, StatusOK)

/-- The handler `BatchForwarder.addToQueue`. `body` is the result of
`io.ReadAll(req.Body)` (`none` is a read error), `contentType` the value of
`req.Header.Get("Content-Type")`. Returns the new state and the status written. -/
def BatchForwarder.addToQueue {α : Type} (f : BatchForwarder α) (codec : Codec α)
    (body : Option Bytes) (contentType : String) : BatchForwarder α × Nat :=
  match body with
  | none => (f, StatusBadRequest)
  | some data =>
    if contentType = "application/x-protobuf" then
      match codec.protoUnmarshal data with
      | none => (f, StatusBadRequest)
      | some msg => f.enqueueDecoded msg
    else if contentType = "application/json" then
      match codec.jsonUnmarshal data with
      | none => (f, StatusBadRequest)
      | some msg => f.enqueueDecoded msg
    else
      (f, StatusBadRequest)

/-! ## Flush (batchforwarder.go, lines 96-126) -/

/-- An outbound `http.Request`: method, URL, header entries, body, and the
timeout of the context it is bound to (nanoseconds). Header keys are kept as
written. -/
structure Request where
  method : String
  url : String
  header : List (String × String)
  body : Bytes
  timeout : Int
  deriving DecidableEq, Repr

/-- An `http.Response`, of which only the status code is read. -/
structure Response where
  StatusCode : Int
  deriving DecidableEq, Repr

/-- The method `Header.Add`: one more entry for the key. -/
def headerAdd (h : List (String × String)) (k v : String) : List (String × String) :=
  h ++ [(k, v)]

/-- The method `Header.Set`: the entry replaces those of the key. -/
def headerSet (h : List (String × String)) (k v : String) : List (String × String) :=
  h.filter (fun e => e.1 ≠ k) ++ [(k, v)]

/-- The network side of `Flush`: whether `http.NewRequestWithContext` accepts
the URL, and the result of `httpClient.Do` (`none` is an error: the request
could not be sent, or the context was cancelled or its deadline passed before
a response). -/
structure Transport where
  validURL : String → Bool
  Do : Request → Option Response

/-- What one `Flush` call did. -/
structure FlushResult (α : Type) where
  forwarder : BatchForwarder α
  err : Option Error
  sent : List Request
  deriving DecidableEq, Repr

/-- The method `BatchForwarder.Flush`, bound to a context of the given timeout. -/
def BatchForwarder.Flush {α : Type} (f : BatchForwarder α) (codec : Codec α)
    (net : Transport) (ctx : Int) : FlushResult α :=
  let d := f.spanQueue.DequeueAll
  let f' : BatchForwarder α := { f with spanQueue := d.1 }
  let spans := d.2
  let exportRequest : ExportTraceServiceRequest α := { ResourceSpans := spans }
  match codec.protoMarshal exportRequest with
  | none => { forwarder := f', err := some Error.marshalFailed, sent := [] }
  | some protoExportRequest =>
    if net.validURL f.config.DestinationEndpoint then
      let req : Request :=
        { method := "POST", url := f.config.DestinationEndpoint, header := [],
          body := protoExportRequest, timeout := ctx }
      let req := { req with
        header := f.config.Headers.foldl
          (fun (h : List (String × String)) (kv : String × String) => headerAdd h kv.1 kv.2)
          req.header }
      let req := { req with
        header := headerSet req.header "Content-Type" "application/x-protobuf" }
      match net.Do req with
      | none => { forwarder := f', err := some Error.executeRequestFailed, sent := [req] }
      | some _ => { forwarder := f', err := none, sent := [req] }
    else
      { forwarder := f', err := some Error.createRequestFailed, sent := [] }

end batchforwarder

/-! ## Durations and instants of package `time` used by `main.go`

Instants are nanoseconds since the Unix epoch and durations are nanoseconds,
both as integers; a `Duration` is a 64-bit signed count and `Time.Sub`
saturates at its bounds. -/

namespace time

/-- The constant `time.Second`, in nanoseconds. -/
def Second : Int := 1000000000

/-- Largest `Duration`. -/
def maxDuration : Int := 2 ^ 63 - 1

/-- Smallest `Duration`. -/
def minDuration : Int := -(2 ^ 63)

/-- The function `time.UnixMilli`: the instant `msec` milliseconds after the epoch. -/
def UnixMilli (msec : Int) : Int := msec * 1000000

/-- The method `Time.Sub`: the difference of two instants, saturated to the
range of a `Duration`. -/
def Sub (t u : Int) : Int :=
  if t - u > maxDuration then maxDuration
  else if t - u < minDuration then minDuration
  else t - u

/-- The function `time.Until` when the clock reads `now`: that is `t.Sub(now)`. -/
def Until (now t : Int) : Int := Sub t now

end time

/-! ## Lifecycle events (package `lambdaextension`) -/

namespace lambdaextension

/-- Modelled from the spec: the declaration of `EventType` (file `client.go` of
the package is not among the sources). The spec names the two kinds Invoke and
Shutdown, which are the two constants `main.go` switches on; `other` stands for
any value of the type that is neither. -/
inductive EventType where
  | Invoke
  | Shutdown
  | other (name : String)
  deriving DecidableEq, Repr

/-- Modelled from the spec: the declaration of `NextEventResponse` (file
`client.go` is not among the sources): an event kind, a millisecond epoch
deadline (an `int64`), a request id and the invoked function, as the spec and
the package test list them. -/
structure NextEventResponse where
  EventType : EventType
  DeadlineMS : Int
  RequestID : String
  InvokedFunctionARN : String
  deriving DecidableEq, Repr

end lambdaextension

/-! ## The poll loop (main.go, lines 96-127) -/

namespace main

open lambdaextension

/-- What the environment supplies to one iteration of the loop: whether
`ctx.Done()` is ready at the `select`, the result of `NextEvent` (`none` is an
error), the clock reading when the flush context is built, and whether the
`Flush` issued in this iteration (if any) returns an error. -/
structure Poll where
  ctxDone : Bool
  next : Option NextEventResponse
  now : Int
  flushFails : Bool
  deriving DecidableEq, Repr

/-- The calls the loop makes, in order. Messages logged at warn or error level
are recorded; debug messages are not. -/
inductive Action where
  | NextEvent
  | Flush (timeout : Int)
  | Log (msg : String)
  | Cancel
  deriving DecidableEq, Repr

/-- The log line written when a flush returned an error. -/
def logFailure (failed : Bool) (msg : String) : List Action :=
  if failed then [Action.Log msg] else []

/-- One iteration of the `for` loop: the calls made and whether the loop goes
on to another iteration (`false`: `main` returns). -/
def iteration (p : Poll) : List Action × Bool :=
  if p.ctxDone then ([], false)
  else
    match p.next with
    | none => ([Action.NextEvent, Action.Log "error from nextevent"], true)
    | some response =>
      match response.EventType with
      | EventType.Invoke =>
          ([Action.NextEvent, Action.Flush (time.Second * 3)]
            ++ logFailure p.flushFails "failed to flush", true)
      | EventType.Shutdown =>
          ([Action.NextEvent,
              Action.Flush (time.Until p.now (time.UnixMilli response.DeadlineMS))]
            ++ logFailure p.flushFails "failed to flush on shutdown"
            ++ [Action.Cancel], false)
      | EventType.other _ => ([Action.NextEvent], true)

/-- The loop over the inputs of successive iterations: the calls made, and
whether the loop is still running when the inputs are used up (`true`) or
`main` has returned (`false`). -/
def pollLoop : List Poll → List Action × Bool
  | [] => ([], true)
  | p :: ps =>
    let r := iteration p
    if r.2 then
      let rest := pollLoop ps
      (r.1 ++ rest.1, rest.2)
    else (r.1, false)

/-- Number of `Flush` calls in a list of calls. -/
def countFlush (as : List Action) : Nat :=
  (as.filter (fun a => match a with | Action.Flush _ => true | _ => false)).length

/-- Number of `NextEvent` calls in a list of calls. -/
def countNextEvent (as : List Action) : Nat :=
  (as.filter (fun a => match a with | Action.NextEvent => true | _ => false)).length

end main


open batchforwarder

/-! ## Helper lemmas on the queue -/

theorem Enqueue_eq_of_ge {α : Type} (s : spanQueue α) (u : List α)
    (h : s.capacity ≤ (s.queue.length : Int)) :
    s.Enqueue u = (s, some (Error.atCapacity s.capacity)) := by
  unfold spanQueue.Enqueue
  rw [if_pos h]

theorem Enqueue_eq_of_lt {α : Type} (s : spanQueue α) (u : List α)
    (h : (s.queue.length : Int) < s.capacity) :
    s.Enqueue u = ({ s with queue := s.queue ++ u }, none) := by
  unfold spanQueue.Enqueue
  rw [if_neg (by omega)]

theorem totalLen_cons {α : Type} (u : List α) (us : List (List α)) :
    totalLen (u :: us) = (u.length : Int) + totalLen us := by
  simp [totalLen]

theorem totalLen_nonneg {α : Type} (us : List (List α)) : 0 ≤ totalLen us := by
  induction us with
  | nil => simp [totalLen]
  | cons u us ih => rw [totalLen_cons]; omega

/-- Within the capacity, a run of `Enqueue` calls leaves the old contents
followed by every batch, whether or not some (empty) batch was turned away. -/
theorem enqueueAll_queue {α : Type} (us : List (List α)) (s : spanQueue α)
    (h : (s.queue.length : Int) + totalLen us ≤ s.capacity) :
    (enqueueAll s us).queue = s.queue ++ us.flatten ∧
      (enqueueAll s us).capacity = s.capacity := by
  induction us generalizing s with
  | nil => simp [enqueueAll]
  | cons u us ih =>
    rw [totalLen_cons] at h
    have h0 := totalLen_nonneg us
    by_cases hc : (s.queue.length : Int) < s.capacity
    · have hstep : enqueueAll s (u :: us)
          = enqueueAll { s with queue := s.queue ++ u } us := by
        simp [enqueueAll, Enqueue_eq_of_lt s u hc]
      rw [hstep]
      have := ih { s with queue := s.queue ++ u } (by
        simp only [List.length_append, Nat.cast_add]; omega)
      simpa [List.append_assoc] using this
    · have hge : s.capacity ≤ (s.queue.length : Int) := by omega
      have hstep : enqueueAll s (u :: us) = enqueueAll s us := by
        simp [enqueueAll, Enqueue_eq_of_ge s u hge]
      rw [hstep]
      have hu : u.length = 0 := by omega
      have := ih s (by omega)
      rw [List.flatten_cons, List.length_eq_zero.mp hu]
      simpa using this

/-- Running calls from any state: the drains in order followed by what is left
equal the starting contents followed by the accepted batches. -/
theorem runOps_conservation {α : Type} (ops : List (QueueOp α)) (s : spanQueue α) :
    (runOps s ops).2.drains.flatten ++ (runOps s ops).1.queue
      = s.queue ++ (runOps s ops).2.accepted.flatten := by
  induction ops generalizing s with
  | nil => simp [runOps]
  | cons op ops ih =>
    cases op with
    | enqueue u =>
      by_cases hc : (s.queue.length : Int) < s.capacity
      · have := ih { s with queue := s.queue ++ u }
        simp only [runOps, Enqueue_eq_of_lt s u hc]
        simpa [List.append_assoc] using this
      · have hge : s.capacity ≤ (s.queue.length : Int) := by omega
        simp only [runOps, Enqueue_eq_of_ge s u hge]
        exact ih s
    | dequeueAll =>
      have := ih { s with queue := [] }
      simp only [runOps, spanQueue.DequeueAll]
      simpa [List.append_assoc] using this

/-- Running calls whose batches have at most `m` units keeps the length below
`capacity + m` and never changes the capacity. -/
theorem runOps_slack {α : Type} (m : Nat) (ops : List (QueueOp α)) (s : spanQueue α)
    (hm : batchesAtMost m ops)
    (hs : (s.queue.length : Int) < s.capacity + (m : Int)) :
    ((runOps s ops).1.queue.length : Int) < s.capacity + (m : Int) ∧
      (runOps s ops).1.capacity = s.capacity := by
  induction ops generalizing s with
  | nil => simpa [runOps] using hs
  | cons op ops ih =>
    have hm' : batchesAtMost m ops := fun u hu => hm u (List.mem_cons_of_mem _ hu)
    cases op with
    | enqueue u =>
      have hu : u.length ≤ m := hm u (List.mem_cons_self _ _)
      by_cases hc : (s.queue.length : Int) < s.capacity
      · have := ih { s with queue := s.queue ++ u } hm' (by
          simp only [List.length_append, Nat.cast_add]; omega)
        simp only [runOps, Enqueue_eq_of_lt s u hc]
        simpa using this
      · have hge : s.capacity ≤ (s.queue.length : Int) := by omega
        simp only [runOps, Enqueue_eq_of_ge s u hge]
        exact ih s hm' hs
    | dequeueAll =>
      have := ih { s with queue := [] } hm' (by
        simp only [List.length_nil, Nat.cast_zero]; omega)
      simp only [runOps, spanQueue.DequeueAll]
      simpa using this

/-! ## The span queue: claims C1 to C5 -/

/-- The spec's example run on a queue of capacity 2: the third single-unit
`Enqueue` is turned away, the drain returns the first two units, and the unit
is accepted afterwards. -/
theorem example_capacity_two :
    runOps ({ queue := [], capacity := 2 } : spanQueue Nat)
        [QueueOp.enqueue [1], QueueOp.enqueue [2], QueueOp.enqueue [3],
         QueueOp.dequeueAll, QueueOp.enqueue [3]]
      = ({ queue := [3], capacity := 2 },
         { drains := [[1, 2]], accepted := [[1], [2], [3]] }) := by
  decide

/-- C1 (as the code has it): `Enqueue` returns an error exactly when the queue
already holds at least `capacity` units, whatever the size of the argument; the
error is the at-capacity error, and a call on a queue below capacity succeeds
for every argument. -/
theorem C1_enqueue_error_iff_at_capacity {α : Type} (q : spanQueue α) (u : List α) :
    ((q.Enqueue u).2 ≠ none ↔ (q.queue.length : Int) ≥ q.capacity) ∧
      ((q.Enqueue u).2 = some (Error.atCapacity q.capacity)
        ↔ (q.queue.length : Int) ≥ q.capacity) ∧
      ((q.Enqueue u).2 = none ↔ (q.queue.length : Int) < q.capacity) := by
  by_cases hc : (q.queue.length : Int) < q.capacity
  · rw [Enqueue_eq_of_lt q u hc]
    simp only [ne_eq, not_true_eq_false, false_iff, true_iff, reduceCtorEq]
    omega
  · have hge : q.capacity ≤ (q.queue.length : Int) := by omega
    rw [Enqueue_eq_of_ge q u hge]
    simp only [ne_eq, reduceCtorEq, not_false_eq_true, true_iff, false_iff]
    omega

/-- C1 fails as stated: on the empty queue built by `New` (capacity 1000) a batch
of 1001 units has `len(queue) + len(u) > capacity`, yet `Enqueue` returns no
error. -/
theorem C1_counterexample_oversized_batch_accepted :
    let q : spanQueue Nat := (New { DestinationEndpoint := "", Headers := [] }).spanQueue
    let u : List Nat := List.replicate 1001 0
    (q.queue.length : Int) + (u.length : Int) > q.capacity ∧ (q.Enqueue u).2 = none := by
  simp only [New, spanQueue.Enqueue, DefaultQueueCapacity, List.length_nil,
    List.length_replicate]
  decide

/-- C2 (as the code has it): in every state reached from the queue of `New` by
`Enqueue` and `DequeueAll` calls whose batches have at most `m` units, the
length is below `capacity + m` and the capacity is still 1000. -/
theorem C2_reachable_length_below_capacity_plus_batch {α : Type} (config : Config)
    (m : Nat) (ops : List (QueueOp α)) (hm : batchesAtMost m ops) :
    let s := (runOps (New config).spanQueue ops).1
    (s.queue.length : Int) < s.capacity + (m : Int) ∧ s.capacity = DefaultQueueCapacity := by
  have h := runOps_slack m ops (New config).spanQueue hm (by
    simp only [New, DefaultQueueCapacity, List.length_nil, Nat.cast_zero]; omega)
  simp only [New] at h ⊢
  rw [h.2]
  exact ⟨h.1, rfl⟩

/-- C2 at a concrete history with batches of at most one unit. -/
theorem C2_reachable_length_witness :
    let ops : List (QueueOp Nat) :=
      [QueueOp.enqueue [1], QueueOp.dequeueAll, QueueOp.enqueue [2], QueueOp.enqueue []]
    let s := (runOps (New { DestinationEndpoint := "", Headers := [] }).spanQueue ops).1
    batchesAtMost 1 ops ∧
      (s.queue.length : Int) < s.capacity + ((1 : Nat) : Int) ∧
      s.capacity = DefaultQueueCapacity :=
  ⟨by intro u hu; simp at hu; rcases hu with h | h | h <;> simp [h],
   C2_reachable_length_below_capacity_plus_batch
     { DestinationEndpoint := "", Headers := [] } 1
     [QueueOp.enqueue [1], QueueOp.dequeueAll, QueueOp.enqueue [2], QueueOp.enqueue []]
     (by intro u hu; simp at hu; rcases hu with h | h | h <;> simp [h])⟩

/-- C2 fails as stated: one `Enqueue` of 1001 units on the queue of `New` is
accepted and leaves `len(queue) > capacity`. -/
theorem C2_counterexample_length_exceeds_capacity :
    let s := (runOps (New { DestinationEndpoint := "", Headers := [] }).spanQueue
      [QueueOp.enqueue (List.replicate 1001 (0 : Nat))]).1
    ¬ ((s.queue.length : Int) ≤ s.capacity) := by
  have hlt : (((New { DestinationEndpoint := "", Headers := [] } :
      BatchForwarder Nat).spanQueue.queue.length : Int))
      < (New { DestinationEndpoint := "", Headers := [] } :
          BatchForwarder Nat).spanQueue.capacity := by
    decide
  simp only [runOps, Enqueue_eq_of_lt _ _ hlt]
  simp only [New, DefaultQueueCapacity, List.nil_append, List.length_replicate]
  decide

/-- C3: `Enqueue` is all-or-none. Either an error is returned and the state
(contents and capacity) is the one before, or `nil` is returned and the
contents are the old contents followed by all of the argument, in order. -/
theorem C3_enqueue_all_or_none {α : Type} (q : spanQueue α) (u : List α) :
    ((q.Enqueue u).2 ≠ none ∧ (q.Enqueue u).1 = q) ∨
      ((q.Enqueue u).2 = none ∧ (q.Enqueue u).1.queue = q.queue ++ u ∧
        (q.Enqueue u).1.capacity = q.capacity) := by
  by_cases hc : (q.queue.length : Int) < q.capacity
  · right
    rw [Enqueue_eq_of_lt q u hc]
    exact ⟨rfl, rfl, rfl⟩
  · left
    have hge : q.capacity ≤ (q.queue.length : Int) := by omega
    rw [Enqueue_eq_of_ge q u hge]
    exact ⟨by simp, rfl⟩

/-- C4: from an empty queue, after `Enqueue` calls whose cumulative size is at
most the capacity, `DequeueAll` returns the concatenation of the batches in
call order, the queue is empty afterwards, and a second `DequeueAll` returns
the empty slice. -/
theorem C4_drain_returns_concatenation {α : Type} (capacity : Int)
    (batches : List (List α)) (h : totalLen batches ≤ capacity) :
    let s := enqueueAll { queue := [], capacity := capacity } batches
    s.DequeueAll.2 = batches.flatten ∧ s.DequeueAll.1.queue = [] ∧
      s.DequeueAll.1.DequeueAll.2 = [] := by
  have hq := enqueueAll_queue batches { queue := ([] : List α), capacity := capacity } (by
    simp only [List.length_nil, Nat.cast_zero]; omega)
  simpa [spanQueue.DequeueAll] using hq.1

/-- C4 on the queue of `New`, with three batches of which one is empty. -/
theorem C4_drain_returns_concatenation_witness :
    totalLen [[1], [2, 3], ([] : List Nat)] ≤ DefaultQueueCapacity ∧
      (let s := enqueueAll { queue := [], capacity := DefaultQueueCapacity }
          [[1], [2, 3], ([] : List Nat)]
       s.DequeueAll.2 = [[1], [2, 3], ([] : List Nat)].flatten ∧
        s.DequeueAll.1.queue = [] ∧ s.DequeueAll.1.DequeueAll.2 = []) :=
  ⟨by decide,
   C4_drain_returns_concatenation DefaultQueueCapacity [[1], [2, 3], []] (by decide)⟩

/-- C5: for every history of `Enqueue` and `DequeueAll` calls on an initially
empty queue, the results of the drains in order, followed by what is left in
the queue, are the arguments of the accepted `Enqueue` calls in order. -/
theorem C5_no_loss_no_duplication {α : Type} (capacity : Int) (ops : List (QueueOp α)) :
    let r := runOps { queue := [], capacity := capacity } ops
    r.2.drains.flatten ++ r.1.queue = r.2.accepted.flatten := by
  have h := runOps_conservation ops { queue := ([] : List α), capacity := capacity }
  simpa using h

/-! ## The ingestion handler: claims C6 and C7 -/

theorem enqueueDecoded_rejected {α : Type} (f : BatchForwarder α)
    (msg : ExportTraceServiceRequest α)
    (h : (f.enqueueDecoded msg).2 = StatusBadRequest) : (f.enqueueDecoded msg).1 = f := by
  by_cases hc : (f.spanQueue.queue.length : Int) < f.spanQueue.capacity
  · simp [BatchForwarder.enqueueDecoded, Enqueue_eq_of_lt _ _ hc, StatusOK,
      StatusBadRequest] at h
  · have hge : f.spanQueue.capacity ≤ (f.spanQueue.queue.length : Int) := by omega
    simp [BatchForwarder.enqueueDecoded, Enqueue_eq_of_ge _ _ hge]

theorem enqueueDecoded_below_capacity {α : Type} (f : BatchForwarder α)
    (msg : ExportTraceServiceRequest α)
    (hc : (f.spanQueue.queue.length : Int) < f.spanQueue.capacity) :
    f.enqueueDecoded msg
      = ({ f with spanQueue := { f.spanQueue with
            queue := f.spanQueue.queue ++ msg.ResourceSpans } }, StatusOK) := by
  simp [BatchForwarder.enqueueDecoded, Enqueue_eq_of_lt _ _ hc,
    ExportTraceServiceRequest.GetResourceSpans]

theorem enqueueDecoded_at_capacity {α : Type} (f : BatchForwarder α)
    (msg : ExportTraceServiceRequest α)
    (hge : f.spanQueue.capacity ≤ (f.spanQueue.queue.length : Int)) :
    f.enqueueDecoded msg = (f, StatusBadRequest) := by
  simp [BatchForwarder.enqueueDecoded, Enqueue_eq_of_ge _ _ hge]

/-- C6: a Content-Type other than the two accepted ones is answered 400, and
every request answered 400 leaves the forwarder, hence the queue contents, as
they were. -/
theorem C6_rejected_request_leaves_queue_unchanged {α : Type} (f : BatchForwarder α)
    (codec : Codec α) (body : Option Bytes) (contentType : String) :
    ((contentType ≠ "application/x-protobuf" ∧ contentType ≠ "application/json") →
        (f.addToQueue codec body contentType).2 = StatusBadRequest) ∧
      ((f.addToQueue codec body contentType).2 = StatusBadRequest →
        (f.addToQueue codec body contentType).1 = f ∧
        (f.addToQueue codec body contentType).1.spanQueue.queue = f.spanQueue.queue) := by
  constructor
  · rintro ⟨h1, h2⟩
    cases body with
    | none => rfl
    | some data => simp [BatchForwarder.addToQueue, h1, h2]
  · intro h
    have key : (f.addToQueue codec body contentType).1 = f := by
      cases body with
      | none => rfl
      | some data =>
        by_cases h1 : contentType = "application/x-protobuf"
        · cases hd : codec.protoUnmarshal data with
          | none => simp [BatchForwarder.addToQueue, h1, hd]
          | some msg =>
            simp only [BatchForwarder.addToQueue, h1, hd, if_true] at h ⊢
            exact enqueueDecoded_rejected f msg h
        · by_cases h2 : contentType = "application/json"
          · cases hd : codec.jsonUnmarshal data with
            | none => simp [BatchForwarder.addToQueue, h1, h2, hd]
            | some msg =>
              simp only [BatchForwarder.addToQueue, h1, h2, hd, if_true, if_false] at h ⊢
              exact enqueueDecoded_rejected f msg h
          · simp [BatchForwarder.addToQueue, h1, h2]
    exact ⟨key, by rw [key]⟩

/-- C6 at a concrete request: Content-Type `text/plain` on a queue holding two
units is answered 400 and the two units are still there. -/
theorem C6_rejected_request_witness :
    let f : BatchForwarder Nat :=
      { config := { DestinationEndpoint := "", Headers := [] },
        spanQueue := { queue := [7, 8], capacity := DefaultQueueCapacity } }
    let codec : Codec Nat :=
      { protoUnmarshal := fun d => some { ResourceSpans := d.map Fin.val },
        jsonUnmarshal := fun d => some { ResourceSpans := d.map Fin.val },
        protoMarshal := fun _ => some [] }
    (f.addToQueue codec (some [1, 2, 3]) "text/plain").2 = StatusBadRequest ∧
      (f.addToQueue codec (some [1, 2, 3]) "text/plain").1.spanQueue.queue = [7, 8] :=
  ⟨(C6_rejected_request_leaves_queue_unchanged _ _ _ _).1 ⟨by decide, by decide⟩,
   ((C6_rejected_request_leaves_queue_unchanged _ _ _ _).2
      ((C6_rejected_request_leaves_queue_unchanged _ _ _ _).1 ⟨by decide, by decide⟩)).2⟩

/-- C7 (as the code has it): on a queue of length `L` below its capacity, a
request with an accepted Content-Type whose body decodes to `n` groups is
answered 200 and the queue becomes the old contents followed by the `n` groups
in payload order, of length `L + n`. -/
theorem C7_ingestion_appends_when_below_capacity {α : Type} (f : BatchForwarder α)
    (codec : Codec α) (data : Bytes) (contentType : String)
    (msg : ExportTraceServiceRequest α)
    (hdec : (contentType = "application/x-protobuf" ∧ codec.protoUnmarshal data = some msg) ∨
      (contentType = "application/json" ∧ codec.jsonUnmarshal data = some msg))
    (hL : (f.spanQueue.queue.length : Int) < f.spanQueue.capacity) :
    (f.addToQueue codec (some data) contentType).2 = StatusOK ∧
      (f.addToQueue codec (some data) contentType).1.spanQueue.queue
        = f.spanQueue.queue ++ msg.ResourceSpans ∧
      (f.addToQueue codec (some data) contentType).1.spanQueue.queue.length
        = f.spanQueue.queue.length + msg.ResourceSpans.length := by
  have hstep : f.addToQueue codec (some data) contentType = f.enqueueDecoded msg := by
    rcases hdec with ⟨hct, hd⟩ | ⟨hct, hd⟩
    · simp [BatchForwarder.addToQueue, hct, hd]
    · simp [BatchForwarder.addToQueue, hct, hd]
  rw [hstep, enqueueDecoded_below_capacity f msg hL]
  simp

/-- C7 at the spec's example: binary Content-Type, three groups, on the queue
of `New`; the answer is 200 and the length grows by three. -/
theorem C7_ingestion_three_groups_witness :
    let f : BatchForwarder Nat := New { DestinationEndpoint := "", Headers := [] }
    let codec : Codec Nat :=
      { protoUnmarshal := fun d => some { ResourceSpans := d.map Fin.val },
        jsonUnmarshal := fun _ => none,
        protoMarshal := fun _ => some [] }
    (f.addToQueue codec (some [1, 2, 3]) "application/x-protobuf").2 = StatusOK ∧
      (f.addToQueue codec (some [1, 2, 3]) "application/x-protobuf").1.spanQueue.queue
        = f.spanQueue.queue ++ [1, 2, 3] ∧
      (f.addToQueue codec (some [1, 2, 3]) "application/x-protobuf").1.spanQueue.queue.length
        = f.spanQueue.queue.length + 3 :=
  C7_ingestion_appends_when_below_capacity
    (New { DestinationEndpoint := "", Headers := [] })
    { protoUnmarshal := fun d => some { ResourceSpans := d.map Fin.val },
      jsonUnmarshal := fun _ => none,
      protoMarshal := fun _ => some [] }
    [1, 2, 3] "application/x-protobuf" { ResourceSpans := [1, 2, 3] }
    (Or.inl ⟨rfl, rfl⟩) (by decide)

/-- C7 fails as stated: on a queue holding exactly 1000 units (capacity 1000) a
binary request that decodes to zero groups has `L + n <= capacity`, yet it is
answered 400. -/
theorem C7_counterexample_empty_payload_at_capacity :
    let f : BatchForwarder Nat :=
      { config := { DestinationEndpoint := "", Headers := [] },
        spanQueue := { queue := List.replicate 1000 0, capacity := DefaultQueueCapacity } }
    let codec : Codec Nat :=
      { protoUnmarshal := fun _ => some { ResourceSpans := [] },
        jsonUnmarshal := fun _ => none,
        protoMarshal := fun _ => some [] }
    codec.protoUnmarshal [] = some { ResourceSpans := [] } ∧
      (f.spanQueue.queue.length : Int) + (([] : List Nat).length : Int)
        ≤ f.spanQueue.capacity ∧
      (f.addToQueue codec (some []) "application/x-protobuf").2 = StatusBadRequest := by
  refine ⟨rfl, ?_, ?_⟩
  · simp only [List.length_replicate, List.length_nil, DefaultQueueCapacity]
    decide
  · simp only [BatchForwarder.addToQueue, if_true]
    rw [enqueueDecoded_at_capacity]
    simp only [List.length_replicate, DefaultQueueCapacity]
    decide

/-! ## Flush: claim C10 -/

/-- C10: `Flush` drains the queue and sends what it drained at most once, with
nothing put back whatever the outcome. After the call the queue is empty; each
request sent carries the encoding of an export request holding exactly the
drained units in insertion order and is bound to the given context; when the
request can be built exactly one request is sent, whether `Do` answers or
errors; and `Flush` reports an error exactly in the failing cases. -/
theorem C10_flush_drains_and_sends_once {α : Type} (f : BatchForwarder α)
    (codec : Codec α) (net : Transport) (ctx : Int) :
    (f.Flush codec net ctx).forwarder.spanQueue.queue = [] ∧
      (f.Flush codec net ctx).forwarder.spanQueue.capacity = f.spanQueue.capacity ∧
      (f.Flush codec net ctx).sent.length ≤ 1 ∧
      (∀ req ∈ (f.Flush codec net ctx).sent,
        codec.protoMarshal { ResourceSpans := f.spanQueue.queue } = some req.body ∧
          req.timeout = ctx ∧ req.method = "POST" ∧
          req.url = f.config.DestinationEndpoint) ∧
      (∀ body, codec.protoMarshal { ResourceSpans := f.spanQueue.queue } = some body →
        net.validURL f.config.DestinationEndpoint = true →
          ∃ req, (f.Flush codec net ctx).sent = [req] ∧ req.body = body ∧
            ((f.Flush codec net ctx).err = none ↔ (net.Do req).isSome = true)) := by
  unfold BatchForwarder.Flush
  simp only [spanQueue.DequeueAll]
  cases hm : codec.protoMarshal { ResourceSpans := f.spanQueue.queue } with
  | none => simp
  | some b =>
    by_cases hv : net.validURL f.config.DestinationEndpoint = true
    · simp only [hv, if_true]
      split <;> simp_all
    · simp [hv]

/-- C10 at a concrete queue: three buffered units, a destination that answers
500; the one request sent carries the three units and the queue is empty. -/
theorem C10_flush_witness :
    let f : BatchForwarder Nat :=
      { config := { DestinationEndpoint := "https://example.test/v1/traces",
                    Headers := [("x-team", "k")] },
        spanQueue := { queue := [1, 2, 3], capacity := DefaultQueueCapacity } }
    let codec : Codec Nat :=
      { protoUnmarshal := fun _ => none,
        jsonUnmarshal := fun _ => none,
        protoMarshal := fun m => some (m.ResourceSpans.map (fun n => Fin.ofNat n)) }
    let net : Transport :=
      { validURL := fun _ => true, Do := fun _ => some { StatusCode := 500 } }
    (f.Flush codec net 3000000000).forwarder.spanQueue.queue = [] ∧
      (f.Flush codec net 3000000000).sent.map (fun r => r.body) = [[1, 2, 3]] ∧
      (f.Flush codec net 3000000000).err = none :=
  ⟨(C10_flush_drains_and_sends_once _ _ _ _).1, by decide, by decide⟩

/-! ## The poll loop: claims C8 and C9 -/

theorem pollLoop_append_running (pre rest : List main.Poll)
    (h : (main.pollLoop pre).2 = true) :
    main.pollLoop (pre ++ rest)
      = ((main.pollLoop pre).1 ++ (main.pollLoop rest).1, (main.pollLoop rest).2) := by
  induction pre with
  | nil => simp [main.pollLoop]
  | cons p ps ih =>
    by_cases hp : (main.iteration p).2 = true
    · simp only [main.pollLoop, hp, if_true] at h
      have ih' := ih h
      rw [List.cons_append]
      simp only [main.pollLoop, hp, if_true]
      rw [ih']
      simp only [List.append_assoc]
    · simp [main.pollLoop, hp] at h

theorem iteration_invoke (p : main.Poll) (r : lambdaextension.NextEventResponse)
    (hdone : p.ctxDone = false) (hnext : p.next = some r)
    (hty : r.EventType = lambdaextension.EventType.Invoke) :
    main.iteration p
      = ([main.Action.NextEvent, main.Action.Flush (time.Second * 3)]
          ++ main.logFailure p.flushFails "failed to flush", true) := by
  simp [main.iteration, hdone, hnext, hty]

theorem iteration_shutdown (p : main.Poll) (r : lambdaextension.NextEventResponse)
    (hdone : p.ctxDone = false) (hnext : p.next = some r)
    (hty : r.EventType = lambdaextension.EventType.Shutdown) :
    main.iteration p
      = ([main.Action.NextEvent,
            main.Action.Flush (time.Until p.now (time.UnixMilli r.DeadlineMS))]
          ++ main.logFailure p.flushFails "failed to flush on shutdown"
          ++ [main.Action.Cancel], false) := by
  simp [main.iteration, hdone, hnext, hty]

theorem countFlush_logFailure (b : Bool) (msg : String) :
    main.countFlush (main.logFailure b msg) = 0 := by
  cases b <;> rfl

theorem countNextEvent_logFailure (b : Bool) (msg : String) :
    main.countNextEvent (main.logFailure b msg) = 0 := by
  cases b <;> rfl

theorem Until_in_range (now t : Int)
    (h1 : time.minDuration ≤ t - now) (h2 : t - now ≤ time.maxDuration) :
    time.Until now t = t - now := by
  unfold time.Until time.Sub
  rw [if_neg (by omega), if_neg (by omega)]

/-- C8 (as the code has it): when the running loop receives a Shutdown event
with deadline `T` milliseconds, it makes one `NextEvent` call and one `Flush`
whose timeout is `T` minus the clock reading, saturated to the range of a
`Duration`, then cancels and returns whether or not that `Flush` failed:
whatever inputs follow, no further call is made. When `T` minus the clock
reading fits a `Duration`, the context deadline (clock reading plus timeout)
is `T`. -/
theorem C8_shutdown_one_flush_then_return (pre rest : List main.Poll) (p : main.Poll)
    (r : lambdaextension.NextEventResponse)
    (hpre : (main.pollLoop pre).2 = true) (hdone : p.ctxDone = false)
    (hnext : p.next = some r)
    (hty : r.EventType = lambdaextension.EventType.Shutdown) :
    main.pollLoop (pre ++ p :: rest)
        = ((main.pollLoop pre).1
            ++ ([main.Action.NextEvent,
                  main.Action.Flush (time.Until p.now (time.UnixMilli r.DeadlineMS))]
                ++ main.logFailure p.flushFails "failed to flush on shutdown"
                ++ [main.Action.Cancel]), false) ∧
      main.countFlush (main.iteration p).1 = 1 ∧
      main.countNextEvent (main.iteration p).1 = 1 ∧
      time.Until p.now (time.UnixMilli r.DeadlineMS)
        = max time.minDuration (min time.maxDuration (time.UnixMilli r.DeadlineMS - p.now)) ∧
      (time.minDuration ≤ time.UnixMilli r.DeadlineMS - p.now →
        time.UnixMilli r.DeadlineMS - p.now ≤ time.maxDuration →
          p.now + time.Until p.now (time.UnixMilli r.DeadlineMS)
            = time.UnixMilli r.DeadlineMS) := by
  have hit := iteration_shutdown p r hdone hnext hty
  refine ⟨?_, ?_, ?_, ?_, ?_⟩
  · rw [pollLoop_append_running pre (p :: rest) hpre]
    simp only [main.pollLoop, hit]
    simp
  · rw [hit]
    cases p.flushFails <;> rfl
  · rw [hit]
    cases p.flushFails <;> rfl
  · unfold time.Until time.Sub time.minDuration time.maxDuration
    split
    · omega
    · split <;> omega
  · intro h1 h2
    rw [Until_in_range _ _ h1 h2]
    omega

/-- C8 at a concrete run: an Invoke event, then a Shutdown event whose deadline
is 500 ms after the clock reading, with a failing flush, then further inputs
that are never used. -/
theorem C8_shutdown_witness :
    main.pollLoop
        ([{ ctxDone := false,
            next := some { EventType := lambdaextension.EventType.Invoke, DeadlineMS := 900,
                           RequestID := "a", InvokedFunctionARN := "f" },
            now := 0, flushFails := false }]
          ++ { ctxDone := false,
               next := some { EventType := lambdaextension.EventType.Shutdown,
                              DeadlineMS := 2000, RequestID := "b",
                              InvokedFunctionARN := "f" },
               now := 1500000000, flushFails := true }
            :: [{ ctxDone := false, next := none, now := 0, flushFails := false }])
      = ([main.Action.NextEvent, main.Action.Flush 3000000000,
          main.Action.NextEvent, main.Action.Flush 500000000,
          main.Action.Log "failed to flush on shutdown", main.Action.Cancel], false) :=
  (C8_shutdown_one_flush_then_return
    [{ ctxDone := false,
       next := some { EventType := lambdaextension.EventType.Invoke, DeadlineMS := 900,
                      RequestID := "a", InvokedFunctionARN := "f" },
       now := 0, flushFails := false }]
    [{ ctxDone := false, next := none, now := 0, flushFails := false }]
    { ctxDone := false,
      next := some { EventType := lambdaextension.EventType.Shutdown,
                     DeadlineMS := 2000, RequestID := "b", InvokedFunctionARN := "f" },
      now := 1500000000, flushFails := true }
    { EventType := lambdaextension.EventType.Shutdown,
      DeadlineMS := 2000, RequestID := "b", InvokedFunctionARN := "f" }
    (by decide) rfl rfl rfl).1.trans (by decide)

/-- C8 fails as stated: for a Shutdown event whose deadline is the largest
`int64` number of milliseconds, received when the clock reads 0, the one
`Flush` issued has the largest `Duration` as timeout, which is not the deadline
minus the clock reading, and the context deadline is not the event's. -/
theorem C8_counterexample_saturated_timeout :
    let p : main.Poll :=
      { ctxDone := false,
        next := some { EventType := lambdaextension.EventType.Shutdown,
                       DeadlineMS := 9223372036854775807, RequestID := "",
                       InvokedFunctionARN := "" },
        now := 0, flushFails := false }
    main.pollLoop [p]
        = ([main.Action.NextEvent, main.Action.Flush 9223372036854775807,
            main.Action.Cancel], false) ∧
      (9223372036854775807 : Int) ≠ time.UnixMilli 9223372036854775807 - p.now ∧
      p.now + 9223372036854775807 ≠ time.UnixMilli 9223372036854775807 := by
  decide

/-- C9: when the running loop receives an Invoke event it makes one `NextEvent`
call and one `Flush` with a timeout of three seconds, and goes on polling
whether or not that `Flush` failed; the calls do not depend on the event's
`DeadlineMS`. -/
theorem C9_invoke_fixed_budget_then_poll (pre rest : List main.Poll) (p : main.Poll)
    (r : lambdaextension.NextEventResponse)
    (hpre : (main.pollLoop pre).2 = true) (hdone : p.ctxDone = false)
    (hnext : p.next = some r)
    (hty : r.EventType = lambdaextension.EventType.Invoke) :
    main.pollLoop (pre ++ p :: rest)
        = ((main.pollLoop pre).1
            ++ ([main.Action.NextEvent, main.Action.Flush 3000000000]
                ++ main.logFailure p.flushFails "failed to flush")
            ++ (main.pollLoop rest).1, (main.pollLoop rest).2) ∧
      main.countFlush (main.iteration p).1 = 1 ∧
      main.countNextEvent (main.iteration p).1 = 1 ∧
      (main.iteration p).2 = true ∧
      (∀ d : Int,
        main.iteration { p with next := some { r with DeadlineMS := d } }
          = main.iteration p) := by
  have hit := iteration_invoke p r hdone hnext hty
  have hsec : time.Second * 3 = 3000000000 := by decide
  rw [hsec] at hit
  refine ⟨?_, ?_, ?_, ?_, ?_⟩
  · rw [pollLoop_append_running pre (p :: rest) hpre]
    simp only [main.pollLoop, hit]
    simp
  · rw [hit]
    cases p.flushFails <;> rfl
  · rw [hit]
    cases p.flushFails <;> rfl
  · rw [hit]
  · intro d
    rw [hit]
    have := iteration_invoke { p with next := some { r with DeadlineMS := d } }
      { r with DeadlineMS := d } hdone rfl hty
    rw [hsec] at this
    exact this

/-- C9 at a concrete run: two Invoke events with deadlines in the past and far
in the future, the first flush failing, followed by a failed poll. -/
theorem C9_invoke_witness :
    main.pollLoop
        ([{ ctxDone := false,
            next := some { EventType := lambdaextension.EventType.Invoke, DeadlineMS := 1,
                           RequestID := "a", InvokedFunctionARN := "f" },
            now := 5000000000, flushFails := true }]
          ++ { ctxDone := false,
               next := some { EventType := lambdaextension.EventType.Invoke,
                              DeadlineMS := 99999999999, RequestID := "b",
                              InvokedFunctionARN := "f" },
               now := 6000000000, flushFails := false }
            :: [{ ctxDone := false, next := none, now := 0, flushFails := false }])
      = ([main.Action.NextEvent, main.Action.Flush 3000000000,
          main.Action.Log "failed to flush",
          main.Action.NextEvent, main.Action.Flush 3000000000,
          main.Action.NextEvent, main.Action.Log "error from nextevent"], true) :=
  (C9_invoke_fixed_budget_then_poll
    [{ ctxDone := false,
       next := some { EventType := lambdaextension.EventType.Invoke, DeadlineMS := 1,
                      RequestID := "a", InvokedFunctionARN := "f" },
       now := 5000000000, flushFails := true }]
    [{ ctxDone := false, next := none, now := 0, flushFails := false }]
    { ctxDone := false,
      next := some { EventType := lambdaextension.EventType.Invoke,
                     DeadlineMS := 99999999999, RequestID := "b",
                     InvokedFunctionARN := "f" },
      now := 6000000000, flushFails := false }
    { EventType := lambdaextension.EventType.Invoke,
      DeadlineMS := 99999999999, RequestID := "b", InvokedFunctionARN := "f" }
    (by decide) rfl rfl rfl).1.trans (by decide)
